import Mathlib

/-!
Verification of the task-list store, sub-agent orchestrator, and tool-invocation
loops of the claude-sdk-teacher repository, as a shallow embedding in Lean 4.

Source files embedded here:
* `src/todo-manager.ts` — `TodoManager` (validate / update / getAll / getByStatus /
  getStats / load) and the sub-agent orchestrator (`SubAgentOrchestrator` with
  `delegateToSubAgent`, `delegateParallel`, and the sequential branch of
  `orchestrate`).
* the todo agent script — `todoWriteTool` dispatch inside `runAgentWithTodos`
  and `executeTodoWrite`.
* `src/sandboxed-agent.ts` — `SandboxedClaudeAgent.executeTool` and the tool-use
  loop of `SandboxedClaudeAgent.run`.

External collaborators (the Anthropic model RPC, the file system, console
output) are modelled as explicit function parameters or omitted when they do
not influence the verified control flow; TypeScript exceptions are modelled
with `Except`.
-/

namespace TodoModel

/-- Mirrors the `Todo` interface of `todo-manager.ts`.  `status` is kept as a
raw `String` because the validation code inspects it with
`['pending','in_progress','completed'].includes(todo.status)`, i.e. arbitrary
runtime strings can reach `validate` (from JSON files or tool inputs cast with
`as`). -/
structure Todo where
  content : String
  status : String
  activeForm : String
deriving DecidableEq

/-- Mirrors the `TodoList` interface: `{ todos: Todo[] }`. -/
structure TodoList where
  todos : List Todo
deriving DecidableEq

/-- Tagged rendering of the `TodoValidationError` throw sites of
`TodoManager.validate`, one constructor per `throw new TodoValidationError(...)`
statement; the stored numbers are the 1-based indices that appear in the
formatted messages (rendered by `errMessage`). -/
inductive TodoValidationError where
  | emptyList
  | multipleInProgress (count : Nat)
  | missingContent (index : Nat)
  | missingActiveForm (index : Nat)
  | invalidStatus (index : Nat) (status : String)
deriving DecidableEq

/-- Message strings of the corresponding `TodoValidationError` constructors,
exactly as formatted in `todo-manager.ts`. -/
def errMessage : TodoValidationError → String
  | .emptyList => "タスクリストが空です"
  | .multipleInProgress n =>
      "in_progressタスクは1つのみ許可されています（現在: " ++ toString n ++ "個）"
  | .missingContent i => "タスク" ++ toString i ++ ": contentが空です"
  | .missingActiveForm i => "タスク" ++ toString i ++ ": activeFormが空です"
  | .invalidStatus i s => "タスク" ++ toString i ++ ": 無効なstatus \"" ++ s ++ "\""

/-- The status whitelist `['pending', 'in_progress', 'completed']` used by the
`includes` check in `validate`. -/
def validStatuses : List String := ["pending", "in_progress", "completed"]

/-- Emptiness-after-trim test `s.trim() === ''` of the validation code: a
string trims to the empty string exactly when every character is whitespace.
It is expressed over the character list so that it evaluates by kernel
reduction (`String.trim` itself is defined by well-founded recursion and does
not reduce definitionally); the JS `!todo.content ||` guard preceding it is
subsumed, since the empty string satisfies this test. -/
def trimEmpty (s : String) : Bool := s.data.all fun c => c.isWhitespace

/-- Per-task field checks of `validate`'s `todos.forEach((todo, index) => ...)`
body: for each task, in index order, check `content` empty-after-trim, then
`activeForm` empty-after-trim, then status membership; the first failing check
throws.  `i` is the 0-based index of the head of the remaining list. -/
def checkFields : Nat → List Todo → Except TodoValidationError Unit
  | _, [] => Except.ok ()
  | i, t :: ts =>
    if trimEmpty t.content then Except.error (TodoValidationError.missingContent (i + 1))
    else if trimEmpty t.activeForm then Except.error (TodoValidationError.missingActiveForm (i + 1))
    else if validStatuses.contains t.status then checkFields (i + 1) ts
    else Except.error (TodoValidationError.invalidStatus (i + 1) t.status)

/-- Mirrors `TodoManager.validate`: empty-list check, then the
`in_progress`-count check, then the per-task field loop. -/
def validate (todos : List Todo) : Except TodoValidationError Unit :=
  if todos.length = 0 then Except.error TodoValidationError.emptyList
  else
    let inProgressCount := (todos.filter fun t => t.status = "in_progress").length
    if inProgressCount > 1 then
      Except.error (TodoValidationError.multipleInProgress inProgressCount)
    else checkFields 0 todos

/-- Mirrors the `TodoManager` class state: the private `todos` array.  The
`todoFile` path and the `save`/`display` side effects are external collaborators
and are not part of the verified state. -/
structure TodoManager where
  todos : List Todo
deriving DecidableEq

/-- Mirrors `TodoManager.update` as a state transformer: it runs `validate`
and, only when validation did not throw, assigns `this.todos = todos` (the
`save()` and `display()` calls are external side effects).  The returned pair
is the manager state after the call together with the thrown error, if any. -/
def update (m : TodoManager) (todos : List Todo) :
    TodoManager × Except TodoValidationError Unit :=
  match validate todos with
  | Except.error e => (m, Except.error e)
  | Except.ok _ => (⟨todos⟩, Except.ok ())

/-- Mirrors `TodoManager.getAll` (the defensive copy `[...this.todos]` is value
equality in this embedding). -/
def getAll (m : TodoManager) : List Todo := m.todos

/-- Mirrors `TodoManager.getByStatus`. -/
def getByStatus (m : TodoManager) (status : String) : List Todo :=
  m.todos.filter fun t => t.status = status

/-- Return type of `TodoManager.getStats`. -/
structure Stats where
  total : Nat
  pending : Nat
  inProgress : Nat
  completed : Nat
  progress : Nat
deriving DecidableEq

/-- Mirrors `TodoManager.getStats`.  The source computes
`Math.round((completed / total) * 100)`; for `0 ≤ completed` and `0 < total`
JavaScript's `Math.round x` is `⌊x + 1/2⌋` (ties round up), and over exact
rationals `⌊100·c/t + 1/2⌋ = (200·c + t) / (2·t)` in natural division, which is
the executable form used here (the floating-point rounding of the double
computation is not modelled). -/
def getStats (m : TodoManager) : Stats :=
  let total := m.todos.length
  let pending := (getByStatus m "pending").length
  let inProgress := (getByStatus m "in_progress").length
  let completed := (getByStatus m "completed").length
  let progress := if total > 0 then (200 * completed + total) / (2 * total) else 0
  ⟨total, pending, inProgress, completed, progress⟩

/-- Mirrors `TodoManager`'s constructor/`load`: if the todo file exists and
parses as a `TodoList` (`fileContents = some parsed`), the parsed `todos` array
is adopted verbatim — no validation runs; otherwise (missing file or any
read/parse error) the list is empty. -/
def load (fileContents : Option TodoList) : List Todo :=
  match fileContents with
  | some parsed => parsed.todos
  | none => []

/-- Mirrors `new TodoManager(file)`: the constructor stores the file path and
calls `load`. -/
def mkTodoManager (fileContents : Option TodoList) : TodoManager :=
  ⟨load fileContents⟩

/-- Mirrors `executeTodoWrite` of the todo agent script: run `manager.update`
inside `try`, returning the success message with the post-update stats, or the
caught validation error's message. -/
def executeTodoWrite (input : TodoList) (m : TodoManager) : TodoManager × String :=
  match update m input.todos with
  | (m', Except.ok _) =>
      let stats := getStats m'
      (m', "✅ タスクリストを更新しました。進捗: " ++ toString stats.completed ++ "/"
        ++ toString stats.total ++ " (" ++ toString stats.progress ++ "%)")
  | (m', Except.error e) => (m', "❌ エラー: " ++ errMessage e)

end TodoModel

namespace AgentModel

open TodoModel

/-- Mirrors the `SubAgentTask` interface: `{ agentName, prompt }`. -/
structure SubAgentTask where
  agentName : String
  prompt : String
deriving DecidableEq

/-- Mirrors the `SubAgentResult` interface: `{ agentName, result, error? }`
(`error = none` when the optional field is absent). -/
structure SubAgentResult where
  agentName : String
  result : String
  error : Option String
deriving DecidableEq

/-- Placeholder value used with `List.getD` when addressing results by index. -/
def defaultResult : SubAgentResult := ⟨"", "", none⟩

/-- Placeholder value used with `List.getD` when addressing tasks by index. -/
def defaultTask : SubAgentTask := ⟨"", ""⟩

/-- Registry of sub-agents: the orchestrator's `Map<string, SubAgent>` keyed by
name.  A `SubAgent`'s `execute(prompt)` is a model RPC call that returns a text
or throws, so it is modelled as `String → Except String String`. -/
def AgentMap : Type := List (String × (String → Except String String))

/-- Mirrors `SubAgentOrchestrator.delegateToSubAgent`: look the name up in the
registry, throw `サブエージェント "name" が見つかりません` when absent, otherwise
run the agent (whose own failure propagates). -/
def delegateToSubAgent (agents : AgentMap) (agentName prompt : String) :
    Except String String :=
  match List.lookup agentName agents with
  | none => Except.error ("サブエージェント \"" ++ agentName ++ "\" が見つかりません")
  | some ag => ag prompt

/-- One branch of `delegateParallel`'s `tasks.map(async (task) => ...)`: the
`try` block returns `{agentName, result}`, the `catch` block returns
`{agentName, result: '', error}`. -/
def branchRun (agents : AgentMap) (task : SubAgentTask) : SubAgentResult :=
  match delegateToSubAgent agents task.agentName task.prompt with
  | Except.ok r => ⟨task.agentName, r, none⟩
  | Except.error e => ⟨task.agentName, "", some e⟩

/-- Mirrors `SubAgentOrchestrator.delegateParallel`: one branch per task, then
`Promise.all(promises)`, whose result array is addressed by the input index
(index `i` of the returned array is branch `i`'s settled value, independent of
completion order — `settleAll` below models that slot-filling explicitly).
The return type is a plain list (no `Except`): the batch itself never throws,
every branch error is captured in its own result. -/
def delegateParallel (agents : AgentMap) (tasks : List SubAgentTask) :
    List SubAgentResult :=
  tasks.map (branchRun agents)

/-- Model of `Promise.all`'s fan-in: `n` result slots, initially empty, are
filled by settlement events `(index, value)` in arbitrary completion order;
each event writes its branch's value into the slot of its input index. -/
def settleAll (n : Nat) (events : List (Nat × SubAgentResult)) :
    List (Option SubAgentResult) :=
  events.foldl (fun slots e => slots.set e.1 (some e.2)) (List.replicate n none)

/-- Mirrors the sequential branch of `SubAgentOrchestrator.orchestrate`
(`for (const task of plan.tasks) { const result = await this.delegateToSubAgent(...);
results.push({agentName, result}); }`).  There is no `try`/`catch` around the
loop body, so a throw from `delegateToSubAgent` aborts the whole loop: that is
the `Except.error` case, which produces no result entry and runs no later task. -/
def sequentialRun (agents : AgentMap) : List SubAgentTask → Except String (List SubAgentResult)
  | [] => Except.ok []
  | t :: ts =>
    match delegateToSubAgent agents t.agentName t.prompt with
    | Except.error e => Except.error e
    | Except.ok r =>
      match sequentialRun agents ts with
      | Except.error e => Except.error e
      | Except.ok rs => Except.ok (⟨t.agentName, r, none⟩ :: rs)

/-- Concrete one-agent registry used by closed counterexamples and witnesses:
a single registered agent named `writer` whose execution always succeeds. -/
def demoAgents : AgentMap := [("writer", fun p => Except.ok ("W:" ++ p))]

end AgentModel

namespace LoopModel

open TodoModel

/-- Content block of a model response, as consumed by the tool-use loops: a
text block or a tool-use block `{id, name, input}`.  The input payload type is
a parameter because the two loops cast it differently (`as TodoList` in the
todo agent, a path/content record in the sandboxed agent). -/
inductive CBlock (α : Type) where
  | text (s : String)
  | toolUse (id : String) (toolName : String) (input : α)
deriving DecidableEq

/-- Mirrors `response.content.filter(block => block.type === 'tool_use')` in
`runAgentWithTodos`, keeping the `(id, name, input)` fields in response order. -/
def toolUseBlocks {α : Type} (content : List (CBlock α)) : List (String × String × α) :=
  content.filterMap fun b =>
    match b with
    | CBlock.toolUse i n inp => some (i, n, inp)
    | CBlock.text _ => none

/-- Mirrors `response.content.find(block => block.type === 'tool_use')` in
`SandboxedClaudeAgent.run` and `agent-example.ts`: only the first tool-use
block of the response is returned. -/
def findFirstToolUse {α : Type} (content : List (CBlock α)) : Option (String × String × α) :=
  content.findSome? fun b =>
    match b with
    | CBlock.toolUse i n inp => some (i, n, inp)
    | CBlock.text _ => none

/-- Loop body of `runAgentWithTodos`'s `for (const toolUse of toolUses)`: when
the block's name is `todo_write` the handler runs against the manager and a
`(tool_use_id, content)` tool-result entry is pushed; any other name matches no
branch, so the block is skipped — no handler runs and no result is pushed. -/
def todoToolStep (acc : TodoManager × List (String × String))
    (u : String × String × TodoList) : TodoManager × List (String × String) :=
  if u.2.1 = "todo_write" then
    let out := executeTodoWrite u.2.2 acc.1
    (out.1, acc.2 ++ [(u.1, out.2)])
  else acc

/-- Tool dispatch of one iteration of `runAgentWithTodos`'s tool-use loop:
filter the tool-use blocks, then run `todoToolStep` over them in response
order, threading the manager; returns the final manager and the `toolResults`
array that the loop then appends as a single `user` turn. -/
def runTodoToolDispatch (m : TodoManager) (content : List (CBlock TodoList)) :
    TodoManager × List (String × String) :=
  (toolUseBlocks content).foldl todoToolStep (m, [])

/-- Result object shape shared by `SandboxedFileSystem`'s operations and
`SandboxedClaudeAgent.executeTool` (`{success, content?, files?, error?}`). -/
structure OpResult where
  success : Bool
  content : Option String
  files : Option (List String)
  error : Option String
deriving DecidableEq

/-- Behaviour of one `SandboxedFileSystem` instance, abstracting the real file
system (an external collaborator): what each operation returns for given
arguments. -/
structure FSModel where
  readFile : String → OpResult
  writeFile : String → String → OpResult
  listFiles : String → OpResult
  deleteFile : String → OpResult

/-- Tool input shape used by the sandboxed agent's tools (`{path?, content?}`);
a missing field is the empty string, matching how the JavaScript falsy check
`input.path || '.'` treats both `undefined` and `''`. -/
structure SToolInput where
  path : String
  content : String
deriving DecidableEq

/-- Mirrors `SandboxedClaudeAgent.executeTool`'s `switch (toolName)`: the four
registered tools dispatch to the file system, and the `default` branch returns
`{ success: false, error: '未知のツール: ...' }`. -/
def executeTool (fs : FSModel) (toolName : String) (input : SToolInput) : OpResult :=
  if toolName = "read_file" then fs.readFile input.path
  else if toolName = "write_file" then fs.writeFile input.path input.content
  else if toolName = "list_files" then fs.listFiles (if input.path = "" then "." else input.path)
  else if toolName = "delete_file" then fs.deleteFile input.path
  else ⟨false, none, none, some ("未知のツール: " ++ toolName)⟩

/-- Tool results appended by one iteration of `SandboxedClaudeAgent.run`'s
tool-use loop: the loop takes only the first tool-use block (`content.find`),
executes it, and pushes a single-element `tool_result` user turn; if no
tool-use block exists it breaks with nothing appended.  All further tool-use
blocks of the same response are ignored. -/
def sandboxIterationResults (fs : FSModel) (content : List (CBlock SToolInput)) :
    List (String × OpResult) :=
  match findFirstToolUse content with
  | none => []
  | some u => [(u.1, executeTool fs u.2.1 u.2.2)]

/-- Concrete file-system behaviour used by closed counterexamples: every
operation succeeds with empty data. -/
def demoFS : FSModel :=
  ⟨fun _ => ⟨true, some "", none, none⟩,
   fun _ _ => ⟨true, none, none, none⟩,
   fun _ => ⟨true, none, some [], none⟩,
   fun _ => ⟨true, none, none, none⟩⟩

end LoopModel

namespace TodoModel

/-- Helper: a candidate list accepted by `validate` has at most one
`in_progress` task, because `validate` throws `multipleInProgress` whenever the
filtered count exceeds one. -/
theorem validate_ok_in_progress_le_one (todos : List Todo)
    (h : validate todos = Except.ok ()) :
    (todos.filter fun t => t.status = "in_progress").length ≤ 1 := by
  unfold validate at h
  by_cases h0 : todos.length = 0
  · simp [h0] at h
  · by_cases hc : (todos.filter fun t => t.status = "in_progress").length > 1
    · simp [h0, hc] at h
    · omega

/-- C1: every candidate list accepted by `TodoManager.update` (an `update`
call that does not fail validation) leaves the stored list with at most one
task whose status is `in_progress`. -/
theorem todo_update_at_most_one_in_progress (m : TodoManager) (todos : List Todo)
    (h : (update m todos).2 = Except.ok ()) :
    ((update m todos).1.todos.filter fun t => t.status = "in_progress").length ≤ 1 := by
  rcases hv : validate todos with e | u
  · simp [update, hv] at h
  · cases u
    simp only [update, hv]
    exact validate_ok_in_progress_le_one todos hv

/-- Witness for C1 at a concrete accepted update. -/
theorem todo_update_at_most_one_in_progress_witness :
    (update ⟨[]⟩ [⟨"a", "in_progress", "A-ing"⟩]).2 = Except.ok () ∧
    ((update ⟨[]⟩ [⟨"a", "in_progress", "A-ing"⟩]).1.todos.filter
      fun t => t.status = "in_progress").length ≤ 1 :=
  ⟨by rfl, todo_update_at_most_one_in_progress ⟨[]⟩ [⟨"a", "in_progress", "A-ing"⟩] (by rfl)⟩

/-- C2: `update` is all-or-nothing — when validation fails, the manager state
after the call is unchanged, so `getAll` afterwards returns exactly what it
returned before the call (no element of the candidate is applied). -/
theorem todo_update_all_or_nothing (m : TodoManager) (todos : List Todo)
    (e : TodoValidationError) (h : (update m todos).2 = Except.error e) :
    getAll (update m todos).1 = getAll m := by
  rcases hv : validate todos with e' | u
  · simp [update, hv]
  · simp [update, hv] at h

/-- Witness for C2 at a concrete rejected update (empty candidate list against
a non-empty store). -/
theorem todo_update_all_or_nothing_witness :
    (update ⟨[⟨"a", "pending", "A-ing"⟩]⟩ []).2 = Except.error TodoValidationError.emptyList ∧
    getAll (update ⟨[⟨"a", "pending", "A-ing"⟩]⟩ []).1 = getAll ⟨[⟨"a", "pending", "A-ing"⟩]⟩ :=
  ⟨by rfl,
   todo_update_all_or_nothing ⟨[⟨"a", "pending", "A-ing"⟩]⟩ []
     TodoValidationError.emptyList (by rfl)⟩

/-- C3 counterexample: a candidate list whose first task has a valid `content`
and `activeForm` but an invalid status, and whose second task has an empty
`content`.  The claim says the missing-field error (rule 3) is reported
regardless of the two tasks' positions; the code reports the invalid-status
error for task 1 instead, because the field and status checks are interleaved
per task. -/
theorem todo_validate_interleaved_counterexample :
    validate [⟨"a", "bogus", "A-ing"⟩, ⟨"", "pending", "B-ing"⟩]
      = Except.error (TodoValidationError.invalidStatus 1 "bogus") := by rfl

/-- Helper: `checkFields` on `pre ++ t :: post` reports the invalid status of
`t` whenever every task of `pre` passes all three per-task checks and `t`
passes its field checks but fails the status check — with no condition at all
on `post`. -/
theorem checkFields_invalid_status (pre : List Todo) (t : Todo) (post : List Todo)
    (i : Nat)
    (hpre : ∀ u ∈ pre, trimEmpty u.content = false ∧ trimEmpty u.activeForm = false ∧
      validStatuses.contains u.status = true)
    (hc : trimEmpty t.content = false) (ha : trimEmpty t.activeForm = false)
    (hs : validStatuses.contains t.status = false) :
    checkFields i (pre ++ t :: post)
      = Except.error (TodoValidationError.invalidStatus (i + pre.length + 1) t.status) := by
  have hs' : ¬ t.status ∈ validStatuses := by simpa using hs
  induction pre generalizing i with
  | nil => simp [checkFields, hc, ha, hs']
  | cons u us ih =>
    have hu := hpre u (by simp)
    have hu3 : u.status ∈ validStatuses := by simpa using hu.2.2
    have hrec := ih (i + 1) fun v hv => hpre v (by simp [hv])
    simp only [List.cons_append, checkFields, hu.1, hu.2.1, hu3, Bool.false_eq_true,
      if_false, if_true, List.append_eq]
    rw [if_pos (by simpa using hu3), hrec]
    simp only [List.length_cons, Except.error.injEq, TodoValidationError.invalidStatus.injEq]
    exact ⟨by omega, trivial⟩

/-- C3 amended: rules 1 (empty list) and 2 (multiple `in_progress`) are checked
first, in that order; the field and status checks are then interleaved in one
per-task pass in index order (`content`, then `activeForm`, then `status` for
each task), first failure winning.  In particular, when the first offending
task has valid fields but an invalid status, the invalid-status error is
reported even if a later task has an empty `content` or `activeForm`. -/
theorem todo_validate_per_task_order (pre : List Todo) (t : Todo) (post : List Todo)
    (hcount : (((pre ++ t :: post).filter fun x => x.status = "in_progress").length) ≤ 1)
    (hpre : ∀ u ∈ pre, trimEmpty u.content = false ∧ trimEmpty u.activeForm = false ∧
      validStatuses.contains u.status = true)
    (hc : trimEmpty t.content = false) (ha : trimEmpty t.activeForm = false)
    (hs : validStatuses.contains t.status = false) :
    validate (pre ++ t :: post)
      = Except.error (TodoValidationError.invalidStatus (pre.length + 1) t.status) := by
  have hne : (pre ++ t :: post).length ≠ 0 := by simp
  have hle : ¬ ((pre ++ t :: post).filter fun x => x.status = "in_progress").length > 1 := by
    omega
  simp only [validate, hne, if_false, hle, if_true]
  simpa using checkFields_invalid_status pre t post 0 hpre hc ha hs

/-- Witness for the amended C3: an invalid-status task at index 2 (1-based)
preceded by a fully valid task and followed by a task with empty `content`. -/
theorem todo_validate_per_task_order_witness :
    (((([⟨"x", "pending", "X-ing"⟩] : List Todo) ++ (⟨"y", "bogus", "Y-ing"⟩ : Todo) ::
        [⟨"", "pending", "Z-ing"⟩]).filter fun x => x.status = "in_progress").length ≤ 1) ∧
    validate (([⟨"x", "pending", "X-ing"⟩] : List Todo) ++ (⟨"y", "bogus", "Y-ing"⟩ : Todo) ::
        [⟨"", "pending", "Z-ing"⟩])
      = Except.error (TodoValidationError.invalidStatus 2 "bogus") :=
  ⟨by decide,
   todo_validate_per_task_order [⟨"x", "pending", "X-ing"⟩] ⟨"y", "bogus", "Y-ing"⟩
     [⟨"", "pending", "Z-ing"⟩] (by decide) (by decide) (by decide) (by decide) (by decide)⟩

/-- C10: the constructor's `load` adopts whatever task array the persistence
file parses to, without validation — first conjunct: adoption is verbatim for
every parsed list; remaining conjuncts: a concrete persisted list with two
`in_progress` tasks yields a freshly constructed store violating the
at-most-one-`in_progress` invariant, and `validate` (hence `update`) would
reject that very list, so the invariant is only guaranteed after the first
successful `update`, not at construction. -/
theorem todo_load_skips_validation :
    (∀ parsed : TodoList, mkTodoManager (some parsed) = ⟨parsed.todos⟩) ∧
    ((mkTodoManager (some ⟨[⟨"x", "in_progress", "X-ing"⟩, ⟨"y", "in_progress", "Y-ing"⟩]⟩)).todos.filter
      fun t => t.status = "in_progress").length = 2 ∧
    validate (mkTodoManager
        (some ⟨[⟨"x", "in_progress", "X-ing"⟩, ⟨"y", "in_progress", "Y-ing"⟩]⟩)).todos
      = Except.error (TodoValidationError.multipleInProgress 2) :=
  ⟨fun _ => rfl, by decide, by rfl⟩

/-- Helper: the executable percentage `(200·c + t) / (2·t)` of `getStats` is
exactly `round(100·c/t)` over the rationals when `t > 0` (JavaScript's
`Math.round` rounds ties up, i.e. `round x = ⌊x + 1/2⌋`). -/
theorem progress_div_eq_round (c t : Nat) (ht : 0 < t) :
    (((200 * c + t) / (2 * t) : ℕ) : ℤ) = round ((100 * (c : ℚ)) / (t : ℚ)) := by
  have ht0 : (0 : ℚ) < (t : ℚ) := by exact_mod_cast ht
  have ht' : ((t : ℚ)) ≠ 0 := ht0.ne'
  have hx : (100 * (c : ℚ)) / (t : ℚ) + 1 / 2
      = ((200 * c + t : ℕ) : ℚ) / ((2 * t : ℕ) : ℚ) := by
    push_cast
    field_simp
    ring
  have hnn : (0 : ℚ) ≤ ((200 * c + t : ℕ) : ℚ) / ((2 * t : ℕ) : ℚ) := by positivity
  rw [round_eq, hx, ← Int.natCast_floor_eq_floor hnn, Nat.floor_div_eq_div]

/-- C9: after every accepted `update`, the stats report the list length as
`total`, the per-status counts as `pending` / `inProgress` / `completed`, and
`progress = round(100 · completed / total)` (with `progress = 0` when the list
is empty, unreachable after a successful update). -/
theorem todo_stats_after_update (m : TodoManager) (todos : List Todo)
    (h : (update m todos).2 = Except.ok ()) :
    (getStats (update m todos).1).total = todos.length ∧
    (getStats (update m todos).1).pending = todos.countP (fun t => t.status = "pending") ∧
    (getStats (update m todos).1).inProgress = todos.countP (fun t => t.status = "in_progress") ∧
    (getStats (update m todos).1).completed = todos.countP (fun t => t.status = "completed") ∧
    (0 < todos.length →
      ((getStats (update m todos).1).progress : ℤ)
        = round ((100 * (todos.countP (fun t => t.status = "completed") : ℚ)) / (todos.length : ℚ))) ∧
    (todos.length = 0 → (getStats (update m todos).1).progress = 0) := by
  rcases hv : validate todos with e | u
  · simp [update, hv] at h
  · simp only [update, hv]
    refine ⟨by simp [getStats], by simp [getStats, getByStatus, List.countP_eq_length_filter],
      by simp [getStats, getByStatus, List.countP_eq_length_filter],
      by simp [getStats, getByStatus, List.countP_eq_length_filter], ?_, ?_⟩
    · intro hpos
      have hcount : ((TodoManager.mk todos).todos.filter fun t => t.status = "completed").length
          = todos.countP fun t => t.status = "completed" := by
        simp [List.countP_eq_length_filter]
      simp only [getStats, getByStatus, hpos, if_pos, hcount]
      exact progress_div_eq_round _ _ hpos
    · intro h0
      simp [getStats, getByStatus, h0]

/-- Witness for C9: the spec's scenario — a single-task list whose task is
completed yields stats `total 1, completed 1, progress 100`. -/
theorem todo_stats_after_update_witness :
    (update ⟨[]⟩ [⟨"a", "completed", "A-ing"⟩]).2 = Except.ok () ∧
    getStats (update ⟨[]⟩ [⟨"a", "completed", "A-ing"⟩]).1 = ⟨1, 0, 0, 1, 100⟩ ∧
    ((getStats (update ⟨[]⟩ [⟨"a", "completed", "A-ing"⟩]).1).total
        = ([⟨"a", "completed", "A-ing"⟩] : List Todo).length ∧
      (getStats (update ⟨[]⟩ [⟨"a", "completed", "A-ing"⟩]).1).pending
        = ([⟨"a", "completed", "A-ing"⟩] : List Todo).countP (fun t => t.status = "pending") ∧
      (getStats (update ⟨[]⟩ [⟨"a", "completed", "A-ing"⟩]).1).inProgress
        = ([⟨"a", "completed", "A-ing"⟩] : List Todo).countP (fun t => t.status = "in_progress") ∧
      (getStats (update ⟨[]⟩ [⟨"a", "completed", "A-ing"⟩]).1).completed
        = ([⟨"a", "completed", "A-ing"⟩] : List Todo).countP (fun t => t.status = "completed") ∧
      (0 < ([⟨"a", "completed", "A-ing"⟩] : List Todo).length →
        ((getStats (update ⟨[]⟩ [⟨"a", "completed", "A-ing"⟩]).1).progress : ℤ)
          = round ((100 * (([⟨"a", "completed", "A-ing"⟩] : List Todo).countP
              (fun t => t.status = "completed") : ℚ))
            / (([⟨"a", "completed", "A-ing"⟩] : List Todo).length : ℚ))) ∧
      (([⟨"a", "completed", "A-ing"⟩] : List Todo).length = 0 →
        (getStats (update ⟨[]⟩ [⟨"a", "completed", "A-ing"⟩]).1).progress = 0)) :=
  ⟨by rfl, by rfl, todo_stats_after_update ⟨[]⟩ [⟨"a", "completed", "A-ing"⟩] (by rfl)⟩

end TodoModel

namespace AgentModel

/-- Helper: a branch's result always carries its own task's `agentName`,
whichever way the branch settled. -/
theorem branchRun_agentName (agents : AgentMap) (t : SubAgentTask) :
    (branchRun agents t).agentName = t.agentName := by
  unfold branchRun
  cases delegateToSubAgent agents t.agentName t.prompt <;> rfl

/-- Helper: filling index-addressed slots with the events `(i, f i)` leaves
slot `j` holding `f j` when `j` occurs among the processed indices, and
untouched otherwise — independent of the order in which the events arrive. -/
theorem foldl_set_getElem? (f : Nat → SubAgentResult) (order : List Nat)
    (slots : List (Option SubAgentResult))
    (hlt : ∀ i ∈ order, i < slots.length) (j : Nat) :
    (order.foldl (fun s i => s.set i (some (f i))) slots)[j]?
      = if j ∈ order then some (some (f j)) else slots[j]? := by
  induction order generalizing slots with
  | nil => simp
  | cons i rest ih =>
    have hi : i < slots.length := hlt i (by simp)
    have hrest : ∀ k ∈ rest, k < (slots.set i (some (f i))).length := by
      intro k hk
      rw [List.length_set]
      exact hlt k (by simp [hk])
    rw [List.foldl_cons, ih _ hrest]
    by_cases hj : j ∈ rest
    · simp [hj]
    · by_cases hji : j = i
      · subst hji
        simp [hj, List.getElem?_set_self', List.getElem?_eq_getElem hi]
      · simp [hj, hji, List.getElem?_set_ne (fun h => hji h.symm)]

/-- C4: `delegateParallel` produces exactly one result per input task, the
`i`-th result corresponds to the `i`-th input task, and the `Promise.all`
fan-in — modelled by `settleAll`, which writes each branch's settled value
into the slot of its input index — reconstructs exactly the input-ordered
result list for every completion order (`order` ranges over all permutations
of the branch indices; requiring it to be a full permutation models that the
call returns only after every branch has settled). -/
theorem delegate_parallel_preserves_input_order (agents : AgentMap)
    (tasks : List SubAgentTask) (order : List Nat)
    (hperm : order.Perm (List.range tasks.length)) :
    (delegateParallel agents tasks).length = tasks.length ∧
    (∀ i, i < tasks.length →
      ((delegateParallel agents tasks).getD i defaultResult).agentName
        = (tasks.getD i defaultTask).agentName) ∧
    settleAll tasks.length
        (order.map fun i => (i, (delegateParallel agents tasks).getD i defaultResult))
      = (delegateParallel agents tasks).map some := by
  have hlen : (delegateParallel agents tasks).length = tasks.length := by
    simp [delegateParallel]
  refine ⟨hlen, ?_, ?_⟩
  · intro i hi
    rw [List.getD_eq_getElem _ _ (by rw [hlen]; exact hi),
      List.getD_eq_getElem _ _ hi]
    simp [delegateParallel, branchRun_agentName]
  · have hmem : ∀ j, j ∈ order ↔ j < tasks.length := by
      intro j
      rw [hperm.mem_iff, List.mem_range]
    apply List.ext_getElem?
    intro j
    unfold settleAll
    rw [List.foldl_map]
    rw [foldl_set_getElem? (fun i => (delegateParallel agents tasks).getD i defaultResult)
      order (List.replicate tasks.length none)
      (by intro i hi; rw [List.length_replicate]; exact (hmem i).mp hi) j]
    by_cases hj : j < tasks.length
    · rw [if_pos ((hmem j).mpr hj)]
      rw [List.getElem?_map, List.getElem?_eq_getElem (by rw [hlen]; exact hj)]
      rw [List.getD_eq_getElem _ _ (by rw [hlen]; exact hj)]
      rfl
    · rw [if_neg (fun hin => hj ((hmem j).mp hin))]
      rw [List.getElem?_eq_none (by rw [List.length_replicate]; omega),
        List.getElem?_eq_none (by rw [List.length_map, hlen]; omega)]

/-- Witness for C4: two tasks whose branches settle in reversed completion
order still yield results in input order. -/
theorem delegate_parallel_preserves_input_order_witness :
    ([1, 0].Perm (List.range ([⟨"writer", "a"⟩, ⟨"ghost", "b"⟩] : List SubAgentTask).length)) ∧
    ((delegateParallel demoAgents [⟨"writer", "a"⟩, ⟨"ghost", "b"⟩]).length
        = ([⟨"writer", "a"⟩, ⟨"ghost", "b"⟩] : List SubAgentTask).length ∧
      (∀ i, i < ([⟨"writer", "a"⟩, ⟨"ghost", "b"⟩] : List SubAgentTask).length →
        ((delegateParallel demoAgents [⟨"writer", "a"⟩, ⟨"ghost", "b"⟩]).getD i defaultResult).agentName
          = (([⟨"writer", "a"⟩, ⟨"ghost", "b"⟩] : List SubAgentTask).getD i defaultTask).agentName) ∧
      settleAll ([⟨"writer", "a"⟩, ⟨"ghost", "b"⟩] : List SubAgentTask).length
          ([1, 0].map fun i =>
            (i, (delegateParallel demoAgents [⟨"writer", "a"⟩, ⟨"ghost", "b"⟩]).getD i defaultResult))
        = (delegateParallel demoAgents [⟨"writer", "a"⟩, ⟨"ghost", "b"⟩]).map some) :=
  ⟨by decide,
   delegate_parallel_preserves_input_order demoAgents [⟨"writer", "a"⟩, ⟨"ghost", "b"⟩]
     [1, 0] (by decide)⟩

/-- C5 counterexample: in the sequential branch of `orchestrate`, an
unregistered agent name in the first task makes the whole run throw — the
return value is the propagated error, not a result list, so the later
(registered) `writer` task never runs and contributes no result.  The claim
said the failure is captured as that task's `SubAgentResult.error` and later
tasks still execute. -/
theorem sequential_failure_aborts_counterexample :
    sequentialRun demoAgents [⟨"ghost", "p1"⟩, ⟨"writer", "p2"⟩]
      = Except.error "サブエージェント \"ghost\" が見つかりません" := by rfl

/-- C5 amended: in sequential delegation a failing task aborts the run at that
task — the error of the first failing task propagates to the caller as a
thrown exception, the failing task contributes no `SubAgentResult`, and no
later task runs (tasks before the first failure execute normally). -/
theorem sequential_failure_propagates (agents : AgentMap) (pre : List SubAgentTask)
    (t : SubAgentTask) (post : List SubAgentTask) (e : String)
    (hpre : ∀ u ∈ pre, ∃ r, delegateToSubAgent agents u.agentName u.prompt = Except.ok r)
    (ht : delegateToSubAgent agents t.agentName t.prompt = Except.error e) :
    sequentialRun agents (pre ++ t :: post) = Except.error e := by
  induction pre with
  | nil => simp [sequentialRun, ht]
  | cons u us ih =>
    obtain ⟨r, hr⟩ := hpre u (by simp)
    have hrec := ih fun v hv => hpre v (by simp [hv])
    simp [sequentialRun, hr, hrec]

/-- Witness for the amended C5: a successful `writer` task, then an
unregistered `ghost` task, then another `writer` task; the run returns the
not-found error. -/
theorem sequential_failure_propagates_witness :
    (∀ u ∈ ([⟨"writer", "p0"⟩] : List SubAgentTask),
      ∃ r, delegateToSubAgent demoAgents u.agentName u.prompt = Except.ok r) ∧
    delegateToSubAgent demoAgents (SubAgentTask.mk "ghost" "p1").agentName
        (SubAgentTask.mk "ghost" "p1").prompt
      = Except.error "サブエージェント \"ghost\" が見つかりません" ∧
    sequentialRun demoAgents
        (([⟨"writer", "p0"⟩] : List SubAgentTask) ++ (⟨"ghost", "p1"⟩ : SubAgentTask) ::
          [⟨"writer", "p2"⟩])
      = Except.error "サブエージェント \"ghost\" が見つかりません" := by
  refine ⟨?_, by rfl, ?_⟩
  · intro u hu
    rw [List.mem_singleton] at hu
    subst hu
    exact ⟨"W:p0", by rfl⟩
  · exact sequential_failure_propagates demoAgents [⟨"writer", "p0"⟩] ⟨"ghost", "p1"⟩
      [⟨"writer", "p2"⟩] "サブエージェント \"ghost\" が見つかりません"
      (by intro u hu; rw [List.mem_singleton] at hu; subst hu; exact ⟨"W:p0", by rfl⟩)
      (by rfl)

/-- C6: in `delegateParallel`, a branch whose `agentName` is unregistered gets
its not-found error captured in its own `SubAgentResult.error` with an empty
`result`; every branch whose execution succeeds gets its successful result
with no error; and the batch itself completes without throwing, returning one
result per task (the return type of `delegateParallel` is a plain list — the
per-branch `catch` leaves no exception to propagate). -/
theorem delegate_parallel_isolates_failures (agents : AgentMap)
    (tasks : List SubAgentTask) (i : Nat) (hi : i < tasks.length)
    (hmiss : List.lookup (tasks.getD i defaultTask).agentName agents = none) :
    (delegateParallel agents tasks).length = tasks.length ∧
    (delegateParallel agents tasks).getD i defaultResult
      = ⟨(tasks.getD i defaultTask).agentName, "",
         some ("サブエージェント \"" ++ (tasks.getD i defaultTask).agentName
           ++ "\" が見つかりません")⟩ ∧
    (∀ j, j < tasks.length → ∀ r,
      delegateToSubAgent agents (tasks.getD j defaultTask).agentName
          (tasks.getD j defaultTask).prompt = Except.ok r →
      (delegateParallel agents tasks).getD j defaultResult
        = ⟨(tasks.getD j defaultTask).agentName, r, none⟩) := by
  have hlen : (delegateParallel agents tasks).length = tasks.length := by
    simp [delegateParallel]
  refine ⟨hlen, ?_, ?_⟩
  · rw [List.getD_eq_getElem _ _ hi] at hmiss
    rw [List.getD_eq_getElem _ _ (by rw [hlen]; exact hi), List.getD_eq_getElem _ _ hi]
    simp only [delegateParallel, List.getElem_map]
    unfold branchRun delegateToSubAgent
    rw [hmiss]
  · intro j hj r hr
    rw [List.getD_eq_getElem _ _ hj] at hr
    rw [List.getD_eq_getElem _ _ (by rw [hlen]; exact hj), List.getD_eq_getElem _ _ hj]
    simp only [delegateParallel, List.getElem_map]
    unfold branchRun
    rw [hr]

/-- Witness for C6: a batch of an unregistered `ghost` task and a registered
`writer` task — the first result captures the not-found error, the second
carries the successful output. -/
theorem delegate_parallel_isolates_failures_witness :
    0 < ([⟨"ghost", "a"⟩, ⟨"writer", "b"⟩] : List SubAgentTask).length ∧
    List.lookup (([⟨"ghost", "a"⟩, ⟨"writer", "b"⟩] : List SubAgentTask).getD 0
        defaultTask).agentName demoAgents = none ∧
    ((delegateParallel demoAgents [⟨"ghost", "a"⟩, ⟨"writer", "b"⟩]).length
        = ([⟨"ghost", "a"⟩, ⟨"writer", "b"⟩] : List SubAgentTask).length ∧
      (delegateParallel demoAgents [⟨"ghost", "a"⟩, ⟨"writer", "b"⟩]).getD 0 defaultResult
        = ⟨(([⟨"ghost", "a"⟩, ⟨"writer", "b"⟩] : List SubAgentTask).getD 0 defaultTask).agentName,
           "", some ("サブエージェント \""
             ++ (([⟨"ghost", "a"⟩, ⟨"writer", "b"⟩] : List SubAgentTask).getD 0
               defaultTask).agentName ++ "\" が見つかりません")⟩ ∧
      (∀ j, j < ([⟨"ghost", "a"⟩, ⟨"writer", "b"⟩] : List SubAgentTask).length → ∀ r,
        delegateToSubAgent demoAgents
            (([⟨"ghost", "a"⟩, ⟨"writer", "b"⟩] : List SubAgentTask).getD j defaultTask).agentName
            (([⟨"ghost", "a"⟩, ⟨"writer", "b"⟩] : List SubAgentTask).getD j defaultTask).prompt
          = Except.ok r →
        (delegateParallel demoAgents [⟨"ghost", "a"⟩, ⟨"writer", "b"⟩]).getD j defaultResult
          = ⟨(([⟨"ghost", "a"⟩, ⟨"writer", "b"⟩] : List SubAgentTask).getD j
              defaultTask).agentName, r, none⟩)) :=
  ⟨by decide, by rfl,
   delegate_parallel_isolates_failures demoAgents [⟨"ghost", "a"⟩, ⟨"writer", "b"⟩] 0
     (by decide) (by rfl)⟩

end AgentModel

namespace LoopModel

open TodoModel

/-- Helper: folding `todoToolStep` over a list of tool-use blocks produces one
tool-result entry per `todo_write` block, in block order, keyed by that block's
`tool_use_id`, and no entry for any other tool name. -/
theorem todoToolStep_foldl_ids (us : List (String × String × TodoList))
    (m : TodoManager) (acc : List (String × String)) :
    ((us.foldl todoToolStep (m, acc)).2).map Prod.fst
      = acc.map Prod.fst ++ ((us.filter fun u => u.2.1 = "todo_write").map fun u => u.1) := by
  induction us generalizing m acc with
  | nil => simp
  | cons u rest ih =>
    by_cases h : u.2.1 = "todo_write"
    · rw [List.foldl_cons]
      rw [show todoToolStep (m, acc) u
          = ((executeTodoWrite u.2.2 m).1, acc ++ [(u.1, (executeTodoWrite u.2.2 m).2)])
        from by simp [todoToolStep, h]]
      rw [ih]
      simp [h]
    · rw [List.foldl_cons, show todoToolStep (m, acc) u = (m, acc) from by simp [todoToolStep, h]]
      rw [ih]
      simp [h]

/-- C7 counterexample: a model response proposing one invocation of an
unregistered tool name (`get_weather`) makes `runAgentWithTodos`'s dispatch
produce an empty `toolResults` array — nothing is appended for the unknown
invocation, it is silently skipped rather than answered with an `isError`
result as the claim requires. -/
theorem todo_loop_unknown_tool_skipped_counterexample :
    (runTodoToolDispatch ⟨[]⟩ [CBlock.toolUse "toolu_1" "get_weather" (⟨[]⟩ : TodoList)]).2 = [] := by rfl

/-- C7 amended: the two loops handle unknown tool names differently.  In
`runAgentWithTodos`, exactly the `todo_write` invocations receive tool results
(one each, keyed by their ids, in order) and invocations of any other name are
silently skipped with no result at all; in `SandboxedClaudeAgent`, an unknown
tool name yields the result payload `{success: false, error: '未知のツール: ...'}`
(error conveyed in the payload, not via an `is_error` flag), which the loop
appends as that invocation's tool result. -/
theorem unknown_tool_handling (m : TodoManager) (content : List (CBlock TodoList))
    (fs : FSModel) (toolName : String) (input : SToolInput)
    (hname : toolName ∉ (["read_file", "write_file", "list_files", "delete_file"] : List String)) :
    ((runTodoToolDispatch m content).2).map Prod.fst
      = ((toolUseBlocks content).filter fun u => u.2.1 = "todo_write").map (fun u => u.1) ∧
    executeTool fs toolName input
      = ⟨false, none, none, some ("未知のツール: " ++ toolName)⟩ := by
  constructor
  · unfold runTodoToolDispatch
    rw [todoToolStep_foldl_ids]
    simp
  · have h1 : toolName ≠ "read_file" := fun h => hname (by simp [h])
    have h2 : toolName ≠ "write_file" := fun h => hname (by simp [h])
    have h3 : toolName ≠ "list_files" := fun h => hname (by simp [h])
    have h4 : toolName ≠ "delete_file" := fun h => hname (by simp [h])
    simp [executeTool, h1, h2, h3, h4]

/-- Witness for the amended C7 at a concrete unknown tool name. -/
theorem unknown_tool_handling_witness :
    ("get_weather" ∉ (["read_file", "write_file", "list_files", "delete_file"] : List String)) ∧
    (((runTodoToolDispatch ⟨[]⟩ [CBlock.toolUse "toolu_9" "todo_write"
          ⟨[⟨"a", "pending", "A-ing"⟩]⟩]).2).map Prod.fst
        = ((toolUseBlocks ([CBlock.toolUse "toolu_9" "todo_write"
            ⟨[⟨"a", "pending", "A-ing"⟩]⟩] : List (CBlock TodoList))).filter
              fun u => u.2.1 = "todo_write").map
          (fun u => u.1) ∧
      executeTool demoFS "get_weather" ⟨"", ""⟩
        = ⟨false, none, none, some ("未知のツール: " ++ "get_weather")⟩) :=
  ⟨by decide,
   unknown_tool_handling ⟨[]⟩ ([CBlock.toolUse "toolu_9" "todo_write"
     ⟨[⟨"a", "pending", "A-ing"⟩]⟩] : List (CBlock TodoList)) demoFS "get_weather"
     ⟨"", ""⟩ (by decide)⟩

/-- C8 counterexample: a model response proposing two tool invocations makes
one iteration of `SandboxedClaudeAgent.run` append exactly one tool result —
only the first tool-use block is executed; the claim requires one result per
proposed invocation (here two). -/
theorem sandbox_loop_single_tool_use_counterexample :
    (sandboxIterationResults demoFS
      [CBlock.toolUse "toolu_1" "list_files" ⟨"", ""⟩,
       CBlock.toolUse "toolu_2" "read_file" ⟨"a.txt", ""⟩]).length = 1 := by rfl

/-- C8 amended: in `runAgentWithTodos`, every `todo_write` invocation block of
the response is executed in the order received with exactly one tool result
each, collected (in that order) into the single user turn's `toolResults`
array, while invocation blocks with any other name are skipped without a
result; in `SandboxedClaudeAgent.run`, at most one tool result is appended per
iteration regardless of how many invocation blocks the response proposes,
because only the first tool-use block is executed. -/
theorem tool_result_per_invocation (m : TodoManager) (content : List (CBlock TodoList))
    (fs : FSModel) (scontent : List (CBlock SToolInput)) :
    ((runTodoToolDispatch m content).2).map Prod.fst
      = ((toolUseBlocks content).filter fun u => u.2.1 = "todo_write").map (fun u => u.1) ∧
    (sandboxIterationResults fs scontent).length ≤ 1 := by
  constructor
  · unfold runTodoToolDispatch
    rw [todoToolStep_foldl_ids]
    simp
  · unfold sandboxIterationResults
    cases findFirstToolUse scontent <;> simp

end LoopModel
